import Mathlib

/-!
Verification of the GPA calculator component (`Window` in the repository's
single source file).  The component's state and handlers are shallowly
embedded.  JavaScript numbers appear in two models: an exact-rational
idealization over `ℚ` (used where the claims are about the algorithm or
where float rounding is immaterial at the inputs concerned), and a
bit-accurate IEEE-754 binary64 model (`Dbl`, below) used where the
runtime's float rounding is observable — the GPA pipeline's sums,
quotient and exactness tests.  The JavaScript value `NaN` (arising from
an unguarded grade-point lookup) and `undefined` are modelled by
`Option`, the browser's persistent key-value store (`localStorage` under
the fixed key) by an `Option (List ClassEntry)` (`none` = no saved
data), and `Date.now()` by an external integer parameter of the submit
step.
-/

/-- The `ClassEntry` interface: `id`, `name`, `grade`, `credits`,
optional `semester`.  `credits` is `Option ℚ` so that legacy entries with
an absent credits field (handled by `cls.credits || 0` in the source) are
representable. -/
structure ClassEntry where
  id : Int
  name : String
  grade : String
  credits : Option ℚ
  semester : Option String
  deriving DecidableEq

/-- The in-progress form state `currentClass : Partial<ClassEntry>`.
An absent or empty string field is represented by `""` (both are falsy in
the source's validity checks); an absent `id` or `credits` by `none`. -/
structure Draft where
  id : Option Int
  name : String
  grade : String
  credits : Option ℚ
  semester : Option String
  deriving DecidableEq

/-- The component state held in `useState` hooks. -/
structure AppState where
  isModalOpen : Bool
  isEditMode : Bool
  classes : List ClassEntry
  currentClass : Draft
  term : String
  year : String
  deriving DecidableEq

/-- Component state together with the persisted store value under the
fixed key `gpa-calculator-classes` (`none` = key absent). -/
structure Sys where
  app : AppState
  store : Option (List ClassEntry)
  deriving DecidableEq

/-- The `gradePoints` table of `calculateGPA`.  A lookup of a grade
outside the table is `undefined` in the source, modelled by `none`. -/
def gradePoints : String → Option ℚ
  | "A" => some 4
  | "A-" => some (367 / 100)
  | "B+" => some (333 / 100)
  | "B" => some 3
  | "B-" => some (267 / 100)
  | "C+" => some (233 / 100)
  | "C" => some 2
  | "C-" => some (167 / 100)
  | "D" => some 1
  | "F" => some 0
  | _ => none

/-- JavaScript truthiness of the `credits` field (`undefined` and `0` are
falsy). -/
def truthyCredits : Option ℚ → Bool
  | none => false
  | some c => c != 0

/-- The value of `cls.credits || 0` from `getTotalCredits`. -/
def creditsOrZero : Option ℚ → ℚ
  | none => 0
  | some c => c

/-- The filter `cls.grade && cls.credits` of the `forEach` loop in
`calculateGPA`. -/
def includeB (cls : ClassEntry) : Bool :=
  (cls.grade != "") && truthyCredits cls.credits

/-- One iteration of the `forEach` loop of `calculateGPA` in exact
arithmetic: the first accumulator component is `totalPoints` (`none` =
`NaN`, which the lookup of an unknown grade produces and which then
absorbs every later addition), the second is `totalCredits`.  The
runtime rounds each multiply and add to binary64; that rounding is
modelled faithfully by `gpaStepD` below and is what the C1 theorem is
about — this exact version is used where the rounding is immaterial. -/
def gpaStep (acc : Option ℚ × ℚ) (cls : ClassEntry) : Option ℚ × ℚ :=
  if includeB cls then
    (acc.1.bind fun p => (gradePoints cls.grade).map fun g => p + g * creditsOrZero cls.credits,
      acc.2 + creditsOrZero cls.credits)
  else acc

/-- The accumulation of `totalPoints` and `totalCredits` in
`calculateGPA`. -/
def gpaTotals (classes : List ClassEntry) : Option ℚ × ℚ :=
  classes.foldl gpaStep (some 0, 0)

/-- Left-pad a digit string with zeros to length `f` (decimal rendering
helper for `toFixed`). -/
def zeroPad (f : Nat) (s : String) : String :=
  String.mk (List.replicate (f - s.length) '0') ++ s

/-- `Number.prototype.toFixed(f)` on an exact rational: the sign is taken
from the argument, the magnitude is rounded to `f` decimal places with
ties away from zero, exactly as ECMAScript specifies.  Every call site in
`calculateGPA` except the final 3-decimal fallback is guarded so that the
value is exact and no rounding occurs. -/
def toFixedQ (f : Nat) (q : ℚ) : String :=
  let s := if q < 0 then "-" else ""
  let n : Int := ⌊|q| * 10 ^ f + 1 / 2⌋
  s ++ toString (n.toNat / 10 ^ f) ++ "." ++ zeroPad f (toString (n.toNat % 10 ^ f))

/-- The adaptive-precision formatting cascade at the end of
`calculateGPA`, read over exact rationals: `gpa === Math.floor(gpa)` then
`toString`, else the same check at 1 and 2 decimals, else `toFixed(3)`.
In the runtime these are float equalities on rounded doubles
(`floatFormatGPA` below); they disagree with the exact reading on some
rosters, e.g. a GPA of exactly 3.67 whose double is one ulp off. -/
def formatGPA (gpa : ℚ) : String :=
  if gpa = ((⌊gpa⌋ : Int) : ℚ) then toString ⌊gpa⌋
  else if gpa * 10 = ((⌊gpa * 10⌋ : Int) : ℚ) then toFixedQ 1 gpa
  else if gpa * 100 = ((⌊gpa * 100⌋ : Int) : ℚ) then toFixedQ 2 gpa
  else toFixedQ 3 gpa

/-- `calculateGPA()` in exact arithmetic (the bit-accurate float version
is `floatCalculateGPA` below).  When an included entry's grade is outside
the `gradePoints` table, `totalPoints` is `NaN` (`none`); then `gpa` is
`NaN`, every floor-equality test is false (`NaN === x` never holds) and
`NaN.toFixed(3)` is the string `"NaN"` — behavior identical in float and
exact arithmetic. -/
def calculateGPA (classes : List ClassEntry) : String :=
  if classes.length = 0 then "0"
  else if (gpaTotals classes).2 = 0 then "0"
  else
    match (gpaTotals classes).1 with
    | none => "NaN"
    | some totalPoints => formatGPA (totalPoints / (gpaTotals classes).2)

/-- `getTotalCredits()`: `classes.reduce((sum, cls) => sum + (cls.credits || 0), 0)`. -/
def getTotalCredits (classes : List ClassEntry) : ℚ :=
  classes.foldl (fun sum cls => sum + creditsOrZero cls.credits) 0

/-- `getTermAbbreviation`: full term name to abbreviation; unknown terms
pass through unchanged. -/
def getTermAbbreviation (fullTerm : String) : String :=
  match fullTerm with
  | "Spring" => "SP"
  | "Fall" => "FA"
  | "Summer" => "SM"
  | "Winter" => "WN"
  | _ => fullTerm

/-- `getFullTermName`: abbreviation back to full term name; unknown
abbreviations pass through unchanged. -/
def getFullTermName (abbrev2 : String) : String :=
  match abbrev2 with
  | "SP" => "Spring"
  | "FA" => "Fall"
  | "SM" => "Summer"
  | "WN" => "Winter"
  | _ => abbrev2

/-- The semester string built in `handleSaveClass`:
`` `${getTermAbbreviation(term)} ${year}` ``. -/
def encodeSemester (term year : String) : String :=
  getTermAbbreviation term ++ " " ++ year

/-- Recursive worker for `splitOnSpace`: `acc` holds the reversed
characters of the current token. -/
def splitOnSpaceAux : List Char → List Char → List String
  | [], acc => [String.mk acc.reverse]
  | c :: rest, acc =>
      if c = ' ' then String.mk acc.reverse :: splitOnSpaceAux rest []
      else splitOnSpaceAux rest (c :: acc)

/-- JavaScript `s.split(" ")`: cut at every single space, keeping empty
tokens (so `""` gives `[""]` and `"a  b"` gives `["a", "", "b"]`). -/
def splitOnSpace (s : String) : List String :=
  splitOnSpaceAux s.data []

/-- The semester parsing of `handleOpenEditModal`: split on `" "`; when
there are exactly two parts, the decoded term/year pair; otherwise
nothing (and the handler leaves `term`/`year` untouched). -/
def decodeSemester (semester : String) : Option (String × String) :=
  match splitOnSpace semester with
  | [a, y] => some (getFullTermName a, y)
  | _ => none

/-- The `years` array: `"00"` .. `"99"`. -/
def years : List String :=
  (List.range 100).map fun i => if i < 10 then "0" ++ toString i else toString i

/-- The four term options offered by the term selector, which are also
exactly the domain of the abbreviation table. -/
def knownTerms : List String := ["Spring", "Fall", "Summer", "Winter"]

/-- JavaScript truthiness of the optional `semester` field (`undefined`
and `""` are falsy). -/
def semTruthy : Option String → Bool
  | none => false
  | some s => s != ""

/-- JavaScript truthiness of the draft's `id` field (`undefined` and `0`
are falsy, as in the `isEditMode && currentClass.id` test). -/
def truthyId : Option Int → Bool
  | none => false
  | some i => i != 0

/-- `isFormValid()` / the guard at the top of `handleSaveClass`: all of
`name`, `grade`, `credits`, `term`, `year` must be truthy. -/
def isFormValid (d : Draft) (term year : String) : Bool :=
  (d.name != "") && (d.grade != "") && truthyCredits d.credits &&
    (term != "") && (year != "")

/-- The reset draft `{ name: "", grade: "", credits: undefined, semester: "" }`. -/
def emptyDraft : Draft :=
  ⟨none, "", "", none, some ""⟩

/-- `setCurrentClass({ ...cls })` in `handleOpenEditModal`: the entry's
fields copied into the draft. -/
def entryToDraft (cls : ClassEntry) : Draft :=
  ⟨some cls.id, cls.name, cls.grade, cls.credits, cls.semester⟩

/-- `{ ...currentClass, semester } as ClassEntry` in the edit branch of
`handleSaveClass`. -/
def draftToEntry (d : Draft) (semester : String) : ClassEntry :=
  ⟨d.id.getD 0, d.name, d.grade, d.credits, some semester⟩

/-- The `term`/`year` state after the parsing block of
`handleOpenEditModal`: a truthy semester that splits into exactly two
tokens is decoded; a truthy semester of any other shape leaves the
previous values in place; a falsy semester resets both to `""`. -/
def openEditTermYear (sem : Option String) (term year : String) : String × String :=
  if semTruthy sem then
    match decodeSemester (sem.getD "") with
    | some (t, y) => (t, y)
    | none => (term, year)
  else ("", "")

/-- `handleOpenEditModal(cls)`: enter edit mode, copy the entry into the
draft, parse its semester, open the modal.  No roster mutation occurs, so
the auto-save effect does not run. -/
def handleOpenEditModal (s : AppState) (cls : ClassEntry) : AppState :=
  ⟨true, true, s.classes, entryToDraft cls,
    (openEditTermYear cls.semester s.term s.year).1,
    (openEditTermYear cls.semester s.term s.year).2⟩

/-- The roster produced by `handleSaveClass` (`none` when the validity
guard makes it return without mutating): in edit mode with a truthy draft
id, replace every entry whose `id` equals the draft's; otherwise append a
new entry whose `id` is `Date.now()`, passed here as `newId`. -/
def handleSaveClassClasses (isEditMode : Bool) (d : Draft) (term year : String)
    (classes : List ClassEntry) (newId : Int) : Option (List ClassEntry) :=
  if isFormValid d term year then
    let semester := if (term != "") && (year != "") then encodeSemester term year else ""
    if isEditMode && truthyId d.id then
      some (classes.map fun cls => if cls.id = d.id.getD 0 then draftToEntry d semester else cls)
    else
      some (classes ++ [⟨newId, d.name, d.grade, d.credits, some semester⟩])
  else none

/-- The auto-save `useEffect` on `[classes]`: it writes the roster to the
store only when the roster is non-empty (`if (classes.length > 0)`). -/
def autoSave (classes : List ClassEntry) (store : Option (List ClassEntry)) :
    Option (List ClassEntry) :=
  if classes.length > 0 then some classes else store

/-- One submit action: `handleSaveClass` followed by the auto-save effect
(which runs only when `setClasses` was called).  On success the draft is
reset, `term`/`year` cleared and the modal closed. -/
def submitStep (s : Sys) (newId : Int) : Sys :=
  match handleSaveClassClasses s.app.isEditMode s.app.currentClass s.app.term s.app.year
      s.app.classes newId with
  | none => s
  | some cs => ⟨⟨false, s.app.isEditMode, cs, emptyDraft, "", ""⟩, autoSave cs s.store⟩

/-- `handleDeleteClass`: `classes.filter((cls) => cls.id !== id)`. -/
def handleDeleteClass (classes : List ClassEntry) (id : Int) : List ClassEntry :=
  classes.filter fun cls => cls.id != id

/-- One delete action: `handleDeleteClass` followed by the auto-save
effect (`setClasses` is always called with a fresh array, so the effect
always runs and then applies its non-empty guard). -/
def deleteStep (s : Sys) (id : Int) : Sys :=
  ⟨⟨s.app.isModalOpen, s.app.isEditMode, handleDeleteClass s.app.classes id,
      s.app.currentClass, s.app.term, s.app.year⟩,
    autoSave (handleDeleteClass s.app.classes id) s.store⟩

/-- The explicit `handleSave` button: unconditionally writes the roster
to the store (and shows a confirmation alert, not modelled). -/
def handleSave (s : Sys) : Sys :=
  ⟨s.app, some s.app.classes⟩

/-- Modelled from the spec (section 8 and the `computeGPA` derivation):
the total grade points `Σ gradePoints[grade]*credits` over the entries
with both a grade and truthy credits. -/
def specTotalPoints (classes : List ClassEntry) : ℚ :=
  ((classes.filter includeB).map fun cls =>
    (gradePoints cls.grade).getD 0 * creditsOrZero cls.credits).sum

/-- Modelled from the spec: the credit sum `Σ credits` over the same
filtered set of entries. -/
def specTotalCredits (classes : List ClassEntry) : ℚ :=
  ((classes.filter includeB).map fun cls => creditsOrZero cls.credits).sum

/-- Modelled from the spec: format with the minimum number of decimal
places (0 to 3) that exactly reproduces the value — the value is exactly
representable with `f` decimals precisely when `q * 10 ^ f` has
denominator 1 — trying 0, 1, 2 decimals and falling back to 3. -/
def formatShortest (q : ℚ) : String :=
  if q.den = 1 then toString q.num
  else if (q * 10).den = 1 then toFixedQ 1 q
  else if (q * 100).den = 1 then toFixedQ 2 q
  else toFixedQ 3 q

/-- Modelled from the spec: `computeGPA()` as section 4.2 states it —
`"0"` for an empty roster, `"0"` for a zero filtered credit sum,
otherwise the formatted quotient of the filtered sums. -/
def specGPA (classes : List ClassEntry) : String :=
  if classes.length = 0 then "0"
  else if specTotalCredits classes = 0 then "0"
  else formatShortest (specTotalPoints classes / specTotalCredits classes)

/-- The roster of the first C2 scenario. -/
def rosterCalcArt : List ClassEntry :=
  [⟨1, "Calc I", "A", some 4, some ""⟩, ⟨2, "Art", "B-", some 2, some ""⟩]

/-- The roster of the second C2 scenario. -/
def rosterSeminar : List ClassEntry :=
  [⟨1, "Seminar", "A", some 3, some ""⟩]

/-- A roster with one entry whose grade is outside the grade-point table. -/
def rosterMystery : List ClassEntry :=
  [⟨1, "Mystery", "E", some 3, some ""⟩]

/-- A one-entry roster used to exhibit the skipped persist on
delete-to-empty. -/
def entryMath : ClassEntry :=
  ⟨1, "Math", "A", some 3, some "FA 24"⟩

/-- System state holding exactly `entryMath`, already persisted. -/
def sysOneEntry : Sys :=
  ⟨⟨false, false, [entryMath], emptyDraft, "", ""⟩, some [entryMath]⟩

/-- A valid add-mode state: empty roster, filled draft. -/
def sysAdd : Sys :=
  ⟨⟨true, false, [], ⟨none, "Physics", "A", some 3, some ""⟩, "Fall", "24"⟩, none⟩

/-- A valid edit-mode state targeting the entry with id 7. -/
def sysEdit : Sys :=
  ⟨⟨true, true, [⟨7, "Old", "B", some 3, some "SP 23"⟩],
      ⟨some 7, "New", "A", some 4, some "SP 23"⟩, "Fall", "24"⟩, none⟩

/-- An invalid submit state: the draft's name is empty. -/
def sysInvalid : Sys :=
  ⟨⟨true, false, [entryMath], ⟨none, "", "A", some 3, some ""⟩, "Fall", "24"⟩, some [entryMath]⟩

/-!
Bit-accurate IEEE-754 binary64 model.  The GPA pipeline of the source
runs on JavaScript numbers, i.e. doubles, and its adaptive formatter
tests exact float equalities (`gpa * 100 === Math.floor(gpa * 100)`), so
its output is observably different from exact-rational arithmetic on some
in-range rosters.  A double is modelled as `m * 2 ^ e` with integer `m`
and `e` (value-accurate; the exponent is unbounded, which is faithful for
the magnitudes a roster can produce, far from overflow and subnormals).
Every arithmetic operation rounds its exact rational result to 53
significand bits, round-to-nearest ties-to-even, exactly as IEEE-754
prescribes.  All computations are on `Nat`/`Int`, so they evaluate inside
the kernel.
-/

/-- A JavaScript number (IEEE-754 binary64): the exact value `m * 2 ^ e`.
Not kept normalized; operations compare and combine exact values. -/
structure Dbl where
  m : Int
  e : Int
  deriving DecidableEq

/-- Number of binary digits of `n`, by fuel (structural, so the kernel
can evaluate it; 1024 bits covers every quantity in the pipeline). -/
def bitLenAux : Nat → Nat → Nat
  | 0, _ => 0
  | fuel + 1, n => if n = 0 then 0 else bitLenAux fuel (n / 2) + 1

/-- Number of binary digits of `n`. -/
def bitLen (n : Nat) : Nat :=
  bitLenAux 1024 n

/-- Decide `2 ^ j ≤ a / d` for positive naturals `a`, `d` and an integer
exponent `j`. -/
def pow2LE (a d : Nat) (j : Int) : Bool :=
  if 0 ≤ j then decide (d * 2 ^ j.toNat ≤ a) else decide (d ≤ a * 2 ^ (-j).toNat)

/-- `⌊log2 (a / d)⌋` for positive naturals: estimate from the bit lengths
and correct by direct comparison. -/
def floorLog2 (a d : Nat) : Int :=
  let k : Int := (bitLen a : Int) - (bitLen d : Int)
  if pow2LE a d (k + 1) then k + 1 else if pow2LE a d k then k else k - 1

/-- Round `n / d` to the nearest natural, ties to even. -/
def roundHalfEvenDiv (n d : Nat) : Nat :=
  let q := n / d
  let r := n % d
  if 2 * r < d then q
  else if d < 2 * r then q + 1
  else if q % 2 = 0 then q else q + 1

/-- Round the exact rational `num / den` (`den ≠ 0`) to the nearest
binary64 value: 53 significand bits, round-to-nearest ties-to-even. -/
def roundDbl (num den : Int) : Dbl :=
  if num = 0 then ⟨0, 0⟩
  else
    let a := num.natAbs
    let d := den.natAbs
    let E := floorLog2 a d
    let sh := 52 - E
    let mNat := if 0 ≤ sh then roundHalfEvenDiv (a * 2 ^ sh.toNat) d
                else roundHalfEvenDiv a (d * 2 ^ (-sh).toNat)
    ⟨if 0 ≤ num * den then (mNat : Int) else -(mNat : Int), E - 52⟩

/-- The two mantissas brought to the smaller exponent, so the integers
compare exactly as the values do. -/
def alignM (x y : Dbl) : Int × Int :=
  let e := min x.e y.e
  (x.m * 2 ^ (x.e - e).toNat, y.m * 2 ^ (y.e - e).toNat)

/-- `===` on doubles: exact value equality. -/
def eqDbl (x y : Dbl) : Bool :=
  decide ((alignM x y).1 = (alignM x y).2)

/-- IEEE addition: round the exact sum. -/
def addDbl (x y : Dbl) : Dbl :=
  let e := min x.e y.e
  let n := x.m * 2 ^ (x.e - e).toNat + y.m * 2 ^ (y.e - e).toNat
  if 0 ≤ e then roundDbl (n * 2 ^ e.toNat) 1 else roundDbl n (2 ^ (-e).toNat)

/-- IEEE multiplication: round the exact product. -/
def mulDbl (x y : Dbl) : Dbl :=
  let n := x.m * y.m
  let e := x.e + y.e
  if 0 ≤ e then roundDbl (n * 2 ^ e.toNat) 1 else roundDbl n (2 ^ (-e).toNat)

/-- IEEE division: round the exact quotient. -/
def divDbl (x y : Dbl) : Dbl :=
  let e := x.e - y.e
  if 0 ≤ e then roundDbl (x.m * 2 ^ e.toNat) y.m else roundDbl x.m (y.m * 2 ^ (-e).toNat)

/-- `Math.floor` of the exact value (always exactly representable, so the
result is the integer itself). -/
def floorDbl (x : Dbl) : Int :=
  if 0 ≤ x.e then x.m * 2 ^ x.e.toNat else Int.ediv x.m (2 ^ (-x.e).toNat)

/-- The double denoted by an integer literal (exact below `2 ^ 53`). -/
def ofIntDbl (n : Int) : Dbl := ⟨n, 0⟩

/-- The double denoted by the decimal literal `n / d`, i.e. the nearest
binary64 value — how the JavaScript parser reads `3.67`. -/
def ofDecimal (n d : Int) : Dbl := roundDbl n d

/-- Round `n / d` to the nearest natural, ties upward — ECMAScript's
`toFixed` tie rule ("pick the larger n") after the sign is extracted. -/
def roundHalfUpDiv (n d : Nat) : Nat :=
  let q := n / d
  if d ≤ 2 * (n % d) then q + 1 else q

/-- `Number.prototype.toFixed(f)` on the exact value of a double. -/
def toFixedDbl (f : Nat) (x : Dbl) : String :=
  let sgn := if x.m < 0 then "-" else ""
  let a := x.m.natAbs
  let n := if 0 ≤ x.e then a * 2 ^ x.e.toNat * 10 ^ f
           else roundHalfUpDiv (a * 10 ^ f) (2 ^ (-x.e).toNat)
  sgn ++ toString (n / 10 ^ f) ++ "." ++ zeroPad f (toString (n % 10 ^ f))

/-- The `gradePoints` table as the doubles the source's literals denote. -/
def gradePointsDbl : String → Option Dbl
  | "A" => some (ofDecimal 4 1)
  | "A-" => some (ofDecimal 367 100)
  | "B+" => some (ofDecimal 333 100)
  | "B" => some (ofDecimal 3 1)
  | "B-" => some (ofDecimal 267 100)
  | "C+" => some (ofDecimal 233 100)
  | "C" => some (ofDecimal 2 1)
  | "C-" => some (ofDecimal 167 100)
  | "D" => some (ofDecimal 1 1)
  | "F" => some (ofDecimal 0 1)
  | _ => none

/-- A roster entry carrying its `credits` as the double the runtime holds
(the float counterpart of `ClassEntry`, same fields otherwise). -/
structure ClassEntryD where
  id : Int
  name : String
  grade : String
  credits : Option Dbl
  semester : Option String
  deriving DecidableEq

/-- Truthiness of the double `credits` field (`undefined` and `±0`
falsy). -/
def truthyCreditsD : Option Dbl → Bool
  | none => false
  | some c => c.m != 0

/-- `cls.credits || 0` on doubles. -/
def creditsOrZeroD : Option Dbl → Dbl
  | none => ⟨0, 0⟩
  | some c => c

/-- The loop filter `cls.grade && cls.credits` on a float entry. -/
def includeD (cls : ClassEntryD) : Bool :=
  (cls.grade != "") && truthyCreditsD cls.credits

/-- One `forEach` iteration of `calculateGPA` in float arithmetic:
`totalPoints += gradePoints[grade] * credits` is one rounded multiply
then one rounded add; likewise `totalCredits += credits`. -/
def gpaStepD (acc : Option Dbl × Dbl) (cls : ClassEntryD) : Option Dbl × Dbl :=
  if includeD cls then
    (acc.1.bind fun p => (gradePointsDbl cls.grade).map fun g =>
        addDbl p (mulDbl g (creditsOrZeroD cls.credits)),
      addDbl acc.2 (creditsOrZeroD cls.credits))
  else acc

/-- The float accumulation of `totalPoints` and `totalCredits`. -/
def gpaTotalsD (classes : List ClassEntryD) : Option Dbl × Dbl :=
  classes.foldl gpaStepD (some ⟨0, 0⟩, ⟨0, 0⟩)

/-- The formatting cascade on the actual doubles: each scaling
`gpa * 10 ^ k` is itself a rounded float multiplication, and the equality
with its `Math.floor` is exact float equality. -/
def floatFormatGPA (gpa : Dbl) : String :=
  if eqDbl gpa ⟨floorDbl gpa, 0⟩ then toString (floorDbl gpa)
  else if eqDbl (mulDbl gpa (ofIntDbl 10)) ⟨floorDbl (mulDbl gpa (ofIntDbl 10)), 0⟩ then
    toFixedDbl 1 gpa
  else if eqDbl (mulDbl gpa (ofIntDbl 100)) ⟨floorDbl (mulDbl gpa (ofIntDbl 100)), 0⟩ then
    toFixedDbl 2 gpa
  else toFixedDbl 3 gpa

/-- `calculateGPA()` exactly as the runtime executes it, on binary64
arithmetic. -/
def floatCalculateGPA (classes : List ClassEntryD) : String :=
  if classes.length = 0 then "0"
  else if eqDbl (gpaTotalsD classes).2 ⟨0, 0⟩ then "0"
  else
    match (gpaTotalsD classes).1 with
    | none => "NaN"
    | some totalPoints => floatFormatGPA (divDbl totalPoints (gpaTotalsD classes).2)

/-- A single A- entry with 5 credits, as the runtime holds it. -/
def rosterAminusD : List ClassEntryD :=
  [⟨1, "Studio", "A-", some (ofIntDbl 5), some ""⟩]

/-- The same roster in the exact-rational model. -/
def rosterAminus : List ClassEntry :=
  [⟨1, "Studio", "A-", some 5, some ""⟩]

/-- An A entry with 1 credit followed by an A- with 3 credits, as the
runtime holds them. -/
def rosterMixD : List ClassEntryD :=
  [⟨1, "Lab", "A", some (ofIntDbl 1), some ""⟩,
    ⟨2, "Drawing", "A-", some (ofIntDbl 3), some ""⟩]

/-- The same two-entry roster in the exact-rational model. -/
def rosterMix : List ClassEntry :=
  [⟨1, "Lab", "A", some 1, some ""⟩, ⟨2, "Drawing", "A-", some 3, some ""⟩]

/-- Folding the credit accumulation of `getTotalCredits` from any start
value equals that value plus the mapped sum. -/
theorem foldl_add_creditsOrZero (l : List ClassEntry) (a : ℚ) :
    l.foldl (fun sum cls => sum + creditsOrZero cls.credits) a
      = a + (l.map fun cls => creditsOrZero cls.credits).sum := by
  induction l generalizing a with
  | nil => simp
  | cons x xs ih =>
    rw [List.foldl_cons, ih]
    simp [add_assoc]

/-- The second accumulator component of the `calculateGPA` loop is the
start value plus the filtered credit sum. -/
theorem foldl_gpaStep_snd (l : List ClassEntry) (acc : Option ℚ × ℚ) :
    (l.foldl gpaStep acc).2 = acc.2 + specTotalCredits l := by
  induction l generalizing acc with
  | nil => simp [specTotalCredits]
  | cons x xs ih =>
    rw [List.foldl_cons, ih]
    cases hx : includeB x
    · simp [gpaStep, hx, specTotalCredits, List.filter_cons]
    · simp [gpaStep, hx, specTotalCredits, List.filter_cons, add_assoc]

/-- Once `totalPoints` is `NaN` it stays `NaN` through the rest of the
loop. -/
theorem foldl_gpaStep_fst_none (l : List ClassEntry) (c : ℚ) :
    (l.foldl gpaStep ((none : Option ℚ), c)).1 = none := by
  induction l generalizing c with
  | nil => rfl
  | cons x xs ih =>
    rw [List.foldl_cons]
    cases hx : includeB x
    · simpa [gpaStep, hx] using ih c
    · simpa [gpaStep, hx] using ih (c + creditsOrZero x.credits)

/-- If some counted entry has a grade outside the table, `totalPoints`
ends up `NaN` no matter the accumulator. -/
theorem foldl_gpaStep_fst_none_of_mem (l : List ClassEntry) (e : ClassEntry)
    (hinc : includeB e = true) (hg : gradePoints e.grade = none) :
    ∀ acc : Option ℚ × ℚ, e ∈ l → (l.foldl gpaStep acc).1 = none := by
  induction l with
  | nil => intro acc he; cases he
  | cons x xs ih =>
    intro acc he
    rw [List.foldl_cons]
    rcases List.mem_cons.mp he with heq | hmem
    · subst heq
      have hstep : gpaStep acc e = (none, acc.2 + creditsOrZero e.credits) := by
        cases hacc : acc.1 <;> simp [gpaStep, hinc, hg, hacc]
      rw [hstep]
      exact foldl_gpaStep_fst_none xs _
    · exact ih _ hmem

/-- When every counted grade is in the table, `totalPoints` is the start
value plus the filtered grade-point sum. -/
theorem foldl_gpaStep_fst_some (l : List ClassEntry) :
    (∀ cls ∈ l, includeB cls = true → (gradePoints cls.grade).isSome = true) →
    ∀ p c : ℚ, (l.foldl gpaStep (some p, c)).1 = some (p + specTotalPoints l) := by
  induction l with
  | nil => intro _ p c; simp [specTotalPoints]
  | cons x xs ih =>
    intro h p c
    rw [List.foldl_cons]
    cases hx : includeB x
    · have hstep : gpaStep (some p, c) x = (some p, c) := by simp [gpaStep, hx]
      rw [hstep, ih (fun cls hc hi => h cls (List.mem_cons_of_mem x hc) hi)]
      simp [specTotalPoints, List.filter_cons, hx]
    · obtain ⟨g, hg⟩ := Option.isSome_iff_exists.mp (h x (List.mem_cons_self x xs) hx)
      have hstep : gpaStep (some p, c) x
          = (some (p + g * creditsOrZero x.credits), c + creditsOrZero x.credits) := by
        simp [gpaStep, hx, hg]
      rw [hstep, ih (fun cls hc hi => h cls (List.mem_cons_of_mem x hc) hi)]
      simp [specTotalPoints, List.filter_cons, hx, hg, add_assoc]

/-- A rational equals the cast of its floor exactly when its denominator
is 1, i.e. when it is integer-exact. -/
theorem den_one_iff_eq_floor (q : ℚ) : q.den = 1 ↔ q = ((⌊q⌋ : Int) : ℚ) := by
  constructor
  · intro h
    have h2 : ((q.num : ℚ)) = q := (Rat.den_eq_one_iff q).mp h
    rw [← h2, Int.floor_intCast]
  · intro h
    rw [h]
    exact Rat.den_intCast ⌊q⌋

/-- The floor-equality cascade of the source formatter agrees branch by
branch with the spec's minimal-exact-decimals formatter. -/
theorem formatGPA_eq_formatShortest (q : ℚ) : formatGPA q = formatShortest q := by
  unfold formatGPA formatShortest
  by_cases h0 : q.den = 1
  · have hq : q = ((⌊q⌋ : Int) : ℚ) := (den_one_iff_eq_floor q).mp h0
    rw [if_pos hq, if_pos h0]
    have hnum : q.num = ⌊q⌋ := by
      conv_lhs => rw [hq]
      simp
    rw [hnum]
  · have hq : ¬ q = ((⌊q⌋ : Int) : ℚ) := fun hc => h0 ((den_one_iff_eq_floor q).mpr hc)
    rw [if_neg hq, if_neg h0]
    by_cases h1 : (q * 10).den = 1
    · rw [if_pos ((den_one_iff_eq_floor _).mp h1), if_pos h1]
    · rw [if_neg (fun hc => h1 ((den_one_iff_eq_floor _).mpr hc)), if_neg h1]
      by_cases h2 : (q * 100).den = 1
      · rw [if_pos ((den_one_iff_eq_floor _).mp h2), if_pos h2]
      · rw [if_neg (fun hc => h2 ((den_one_iff_eq_floor _).mpr hc)), if_neg h2]

/-- A semester string that does not split into exactly two tokens decodes
to nothing. -/
theorem decodeSemester_eq_none (s : String) (h : (splitOnSpace s).length ≠ 2) :
    decodeSemester s = none := by
  unfold decodeSemester
  cases h1 : splitOnSpace s with
  | nil => rfl
  | cons a t =>
    cases t with
    | nil => rfl
    | cons y t2 =>
      cases t2 with
      | nil =>
        rw [h1] at h
        simp at h
      | cons z t3 => rfl

/-- Exhaustive check: every term in the selector table round-trips with
every year the year selector offers. -/
theorem roundTripAll : ∀ t ∈ knownTerms, ∀ y ∈ years,
    decodeSemester (encodeSemester t y) = some (t, y) := by decide

/-- The exact-arithmetic idealization of the pipeline follows the spec's
algorithm: with the sums, quotient and exactness tests read over exact
rationals, `calculateGPA` equals the spec-side `specGPA` on every roster
whose counted grades are in the ten-grade table.  The actual binary64
pipeline `floatCalculateGPA` deviates from both on some rosters — that
divergence is the subject of the C1 theorem below. -/
theorem exactGPA_refines_spec (classes : List ClassEntry)
    (h : ∀ cls ∈ classes, includeB cls = true → (gradePoints cls.grade).isSome = true) :
    calculateGPA classes = specGPA classes := by
  unfold calculateGPA specGPA
  by_cases hlen : classes.length = 0
  · rw [if_pos hlen, if_pos hlen]
  · rw [if_neg hlen, if_neg hlen]
    have h2 : (gpaTotals classes).2 = specTotalCredits classes := by
      simpa [gpaTotals] using foldl_gpaStep_snd classes (some 0, 0)
    have h1 : (gpaTotals classes).1 = some (specTotalPoints classes) := by
      simpa [gpaTotals] using foldl_gpaStep_fst_some classes h 0 0
    rw [h2, h1]
    by_cases hc : specTotalCredits classes = 0
    · rw [if_pos hc, if_pos hc]
    · rw [if_neg hc, if_neg hc]
      exact formatGPA_eq_formatShortest _

/-- Evaluation of the code on the first C2 scenario roster: B- is worth
2.67, so the GPA is (4*4 + 2.67*2)/6 = 21.34/6 = 3.55666…, which no
decimal count 0..2 reproduces exactly, hence `toFixed(3)` gives "3.557". -/
theorem calcArt_gpa : calculateGPA rosterCalcArt = "3.557" := by
  have hA : ("A" = "") = False := by decide
  have hB : ("B-" = "") = False := by decide
  have habs : |(1067 / 300 : ℚ)| = 1067 / 300 := abs_of_pos (by norm_num)
  norm_num [rosterCalcArt, calculateGPA, gpaTotals, gpaStep, includeB, truthyCredits,
    creditsOrZero, gradePoints, formatGPA, toFixedQ, zeroPad, List.foldl, hA, hB, habs]
  decide

/-- Evaluation of the code on the second C2 scenario roster. -/
theorem seminar_gpa : calculateGPA rosterSeminar = "4" := by
  have hA : ("A" = "") = False := by decide
  norm_num [rosterSeminar, calculateGPA, gpaTotals, gpaStep, includeB, truthyCredits,
    creditsOrZero, gradePoints, formatGPA, toFixedQ, zeroPad, List.foldl, hA]
  decide

/-- Evaluation of `getTotalCredits` on the first C2 scenario roster. -/
theorem calcArt_credits : getTotalCredits rosterCalcArt = 6 := by
  norm_num [rosterCalcArt, getTotalCredits, creditsOrZero, List.foldl]

/-- Claim C2 (counterexample): on the roster [Calc I: A, 4cr; Art: B-,
2cr] the code does not return "3.223" — the claimed value corresponds to
grade C- (1.67), not B- (2.67). -/
theorem C2_scenario_counterexample : calculateGPA rosterCalcArt ≠ "3.223" := by
  rw [calcArt_gpa]
  decide

/-- Claim C2 (amended): on [Calc I: A, 4cr; Art: B-, 2cr] `computeGPA()`
returns "3.557" (= (4*4 + 2.67*2)/6 rounded to 3 decimals) and
`computeTotalCredits()` returns 6; on [Seminar: A, 3cr] `computeGPA()`
returns "4". -/
theorem C2_scenarios_amended :
    calculateGPA rosterCalcArt = "3.557" ∧ getTotalCredits rosterCalcArt = 6 ∧
      calculateGPA rosterSeminar = "4" :=
  ⟨calcArt_gpa, calcArt_credits, seminar_gpa⟩

/-- Claim C3: for every roster, `computeTotalCredits()` equals the sum of
credits (0 for an absent credits field) over every entry, with no
filtering by grade presence or validity. -/
theorem C3_total_credits_sums_all (classes : List ClassEntry) :
    getTotalCredits classes = (classes.map fun cls => creditsOrZero cls.credits).sum := by
  simpa [getTotalCredits] using foldl_add_creditsOrZero classes 0

/-- Claim C4 (counterexample): the submit-time encoder accepts any truthy
term, and the unknown term "SP" passes through unabbreviated; its encoded
form "SP 24" then decodes to term "Spring", not back to "SP", so the
round-trip is not lossless for every accepted term. -/
theorem C4_roundtrip_counterexample :
    decodeSemester (encodeSemester "SP" "24") ≠ some ("SP", "24") := by decide

/-- Claim C4 (amended): for every term in the abbreviation table's domain
{Spring, Fall, Summer, Winter} — the only terms the selector offers — and
every two-digit year string the year selector offers, encoding then
decoding yields back the original term and year. -/
theorem C4_roundtrip_known_terms (t y : String) (ht : t ∈ knownTerms) (hy : y ∈ years) :
    decodeSemester (encodeSemester t y) = some (t, y) :=
  roundTripAll t ht y hy

/-- Witness for C4: Fall/24 round-trips through "FA 24". -/
theorem C4_roundtrip_known_terms_witness :
    ("Fall" ∈ knownTerms ∧ "24" ∈ years) ∧
      decodeSemester (encodeSemester "Fall" "24") = some ("Fall", "24") :=
  ⟨⟨by decide, by decide⟩, C4_roundtrip_known_terms "Fall" "24" (by decide) (by decide)⟩

/-- Claim C5: in Adding mode, a valid submit appends exactly one new
entry at the end — built from the draft's fields, the encoded semester
and the fresh id `Date.now()` (modelled as the `newId` parameter, assumed
fresh as the spec's "monotonic/unique token" prescribes) — and leaves
every prior entry and the prior order unchanged. -/
theorem C5_add_appends_fresh_entry (s : Sys) (newId : Int)
    (hmode : s.app.isEditMode = false)
    (hvalid : isFormValid s.app.currentClass s.app.term s.app.year = true)
    (hfresh : ∀ cls ∈ s.app.classes, cls.id ≠ newId) :
    (submitStep s newId).app.classes =
      s.app.classes ++ [⟨newId, s.app.currentClass.name, s.app.currentClass.grade,
        s.app.currentClass.credits, some (encodeSemester s.app.term s.app.year)⟩] ∧
    ∀ cls ∈ s.app.classes, cls.id ≠ newId := by
  refine ⟨?_, hfresh⟩
  have hv := hvalid
  simp only [isFormValid, Bool.and_eq_true] at hv
  obtain ⟨⟨⟨⟨hn, hg⟩, hc⟩, ht⟩, hy⟩ := hv
  simp [submitStep, handleSaveClassClasses, hvalid, hmode, ht, hy]

/-- Witness for C5: adding a valid Physics draft to the empty roster. -/
theorem C5_add_appends_fresh_entry_witness :
    (submitStep sysAdd 5).app.classes =
      sysAdd.app.classes ++ [⟨5, sysAdd.app.currentClass.name, sysAdd.app.currentClass.grade,
        sysAdd.app.currentClass.credits, some (encodeSemester sysAdd.app.term sysAdd.app.year)⟩] := by
  have hvalid : isFormValid sysAdd.app.currentClass sysAdd.app.term sysAdd.app.year = true := by
    simp only [sysAdd, isFormValid, Bool.and_eq_true, bne_iff_ne, truthyCredits]
    refine ⟨⟨⟨⟨by decide, by decide⟩, by norm_num⟩, by decide⟩, by decide⟩
  have hfresh : ∀ cls ∈ sysAdd.app.classes, cls.id ≠ 5 := by
    intro cls hcl
    simp [sysAdd] at hcl
  exact (C5_add_appends_fresh_entry sysAdd 5 rfl hvalid hfresh).1

/-- Claim C6: in Editing mode, a valid submit whose draft id matches an
existing entry replaces exactly the matching entries wholesale — same id,
fields from the draft plus the encoded semester — preserving the roster's
length and order and leaving every entry with a different id unchanged.
The draft id must be truthy (nonzero), as entry ids created by
`Date.now()` always are, since `isEditMode && currentClass.id` would
otherwise fall through to the add branch. -/
theorem C6_edit_replaces_in_place (s : Sys) (newId : Int) (i : Int)
    (hmode : s.app.isEditMode = true)
    (hvalid : isFormValid s.app.currentClass s.app.term s.app.year = true)
    (hid : s.app.currentClass.id = some i) (hi0 : i ≠ 0)
    (_hmem : ∃ cls ∈ s.app.classes, cls.id = i) :
    (submitStep s newId).app.classes =
      s.app.classes.map (fun cls =>
        if cls.id = i then
          draftToEntry s.app.currentClass (encodeSemester s.app.term s.app.year)
        else cls) ∧
    (draftToEntry s.app.currentClass (encodeSemester s.app.term s.app.year)).id = i ∧
    (submitStep s newId).app.classes.length = s.app.classes.length ∧
    (∀ k : Nat, ∀ cls : ClassEntry, s.app.classes[k]? = some cls → cls.id ≠ i →
      (submitStep s newId).app.classes[k]? = some cls) ∧
    (∀ k : Nat, ∀ cls : ClassEntry, s.app.classes[k]? = some cls → cls.id = i →
      (submitStep s newId).app.classes[k]? =
        some (draftToEntry s.app.currentClass (encodeSemester s.app.term s.app.year))) := by
  have hv := hvalid
  simp only [isFormValid, Bool.and_eq_true] at hv
  obtain ⟨⟨⟨⟨hn, hg⟩, hc⟩, ht⟩, hy⟩ := hv
  have htr : truthyId s.app.currentClass.id = true := by
    simp [truthyId, hid, bne_iff_ne, hi0]
  have hmap : (submitStep s newId).app.classes =
      s.app.classes.map (fun cls =>
        if cls.id = i then
          draftToEntry s.app.currentClass (encodeSemester s.app.term s.app.year)
        else cls) := by
    simp [submitStep, handleSaveClassClasses, hvalid, hmode, htr, ht, hy, hid,
      truthyId, bne_iff_ne, hi0]
  refine ⟨hmap, by simp [draftToEntry, hid], by rw [hmap]; simp, ?_, ?_⟩
  · intro k cls hk hne
    rw [hmap, List.getElem?_map, hk]
    simp [hne]
  · intro k cls hk heq
    rw [hmap, List.getElem?_map, hk]
    simp [heq]

/-- Witness for C6: editing the entry with id 7. -/
theorem C6_edit_replaces_in_place_witness :
    (submitStep sysEdit 99).app.classes =
      sysEdit.app.classes.map (fun cls =>
        if cls.id = 7 then
          draftToEntry sysEdit.app.currentClass (encodeSemester sysEdit.app.term sysEdit.app.year)
        else cls) := by
  have hvalid : isFormValid sysEdit.app.currentClass sysEdit.app.term sysEdit.app.year = true := by
    simp only [sysEdit, isFormValid, Bool.and_eq_true, bne_iff_ne, truthyCredits]
    refine ⟨⟨⟨⟨by decide, by decide⟩, by norm_num⟩, by decide⟩, by decide⟩
  have hmem : ∃ cls ∈ sysEdit.app.classes, cls.id = 7 := by
    refine ⟨⟨7, "Old", "B", some 3, some "SP 23"⟩, ?_, rfl⟩
    simp [sysEdit]
  exact (C6_edit_replaces_in_place sysEdit 99 7 rfl hvalid rfl (by decide) hmem).1

/-- Claim C7: a submit with any one of name, grade, credits, term, year
missing is a complete no-op: no roster mutation, no persistence, no state
change. -/
theorem C7_invalid_submit_noop (s : Sys) (newId : Int)
    (h : s.app.currentClass.name = "" ∨ s.app.currentClass.grade = "" ∨
      truthyCredits s.app.currentClass.credits = false ∨ s.app.term = "" ∨ s.app.year = "") :
    submitStep s newId = s := by
  have hinv : isFormValid s.app.currentClass s.app.term s.app.year = false := by
    simp only [isFormValid]
    rcases h with h | h | h | h | h <;> simp [h]
  simp [submitStep, handleSaveClassClasses, hinv]

/-- Witness for C7: a draft with an empty name is rejected without any
state change. -/
theorem C7_invalid_submit_noop_witness :
    sysInvalid.app.currentClass.name = "" ∧ submitStep sysInvalid 1 = sysInvalid :=
  ⟨rfl, C7_invalid_submit_noop sysInvalid 1 (Or.inl rfl)⟩

/-- Claim C8 (code defect exhibited): deleting the only entry empties the
roster, but the auto-save effect is guarded by `classes.length > 0` and
skips the write, so the store still holds the deleted entry instead of
the empty roster the claim requires. -/
theorem C8_delete_to_empty_skips_persist :
    (deleteStep sysOneEntry 1).app.classes = [] ∧
    (deleteStep sysOneEntry 1).store = some [entryMath] ∧
    some [entryMath] ≠ some ([] : List ClassEntry) := by
  refine ⟨rfl, rfl, ?_⟩
  intro h
  simp at h

/-- Claim C9: `openEdit(entry)` copies the entry's fields into the draft;
it decodes the semester into `term`/`year` exactly when the stored
semester splits into two space-separated tokens, and for any other truthy
semester value `term`/`year` (empty beforehand, as after a reset) remain
empty. -/
theorem C9_open_edit_decode (s : AppState) (cls : ClassEntry)
    (hterm : s.term = "") (hyear : s.year = "") :
    (handleOpenEditModal s cls).currentClass = entryToDraft cls ∧
    (∀ a y : String, semTruthy cls.semester = true →
      splitOnSpace (cls.semester.getD "") = [a, y] →
      (handleOpenEditModal s cls).term = getFullTermName a ∧
      (handleOpenEditModal s cls).year = y) ∧
    (semTruthy cls.semester = true →
      (splitOnSpace (cls.semester.getD "")).length ≠ 2 →
      (handleOpenEditModal s cls).term = "" ∧ (handleOpenEditModal s cls).year = "") := by
  refine ⟨rfl, ?_, ?_⟩
  · intro a y hsem hsplit
    have hdec : decodeSemester (cls.semester.getD "") = some (getFullTermName a, y) := by
      unfold decodeSemester
      rw [hsplit]
    constructor <;> simp [handleOpenEditModal, openEditTermYear, hsem, hdec]
  · intro hsem hlen
    have hdec := decodeSemester_eq_none _ hlen
    constructor <;>
      simp [handleOpenEditModal, openEditTermYear, hsem, hdec, hterm, hyear]

/-- Witness for C9: opening the Math entry (semester "FA 24") from a
reset state decodes to Fall/24 and copies the fields. -/
theorem C9_open_edit_decode_witness :
    (handleOpenEditModal ⟨false, false, [], emptyDraft, "", ""⟩ entryMath).currentClass
        = entryToDraft entryMath ∧
    (handleOpenEditModal ⟨false, false, [], emptyDraft, "", ""⟩ entryMath).term = "Fall" ∧
    (handleOpenEditModal ⟨false, false, [], emptyDraft, "", ""⟩ entryMath).year = "24" := by
  have h := C9_open_edit_decode ⟨false, false, [], emptyDraft, "", ""⟩ entryMath rfl rfl
  have h2 := h.2.1 "FA" "24" (by decide) (by decide)
  exact ⟨h.1, by rw [h2.1]; decide, h2.2⟩

/-- Claim C10: a roster containing an entry whose grade is truthy but
outside the ten-grade table and whose credits are truthy makes
`computeGPA()` return "NaN": the unguarded lookup yields `undefined`,
which is included in the sums and propagates through the arithmetic and
every formatting branch.  Credits are assumed nonnegative (the data model
allows only 1..6), which keeps the filtered credit sum nonzero so the
computation reaches the division. -/
theorem C10_unknown_grade_nan (classes : List ClassEntry) (e : ClassEntry)
    (he : e ∈ classes) (hg : e.grade ≠ "") (hgp : gradePoints e.grade = none)
    (hc : truthyCredits e.credits = true)
    (hnn : ∀ cls ∈ classes, 0 ≤ creditsOrZero cls.credits) :
    calculateGPA classes = "NaN" := by
  have hinc : includeB e = true := by
    simp [includeB, bne_iff_ne, hg, hc]
  have hlen : ¬ classes.length = 0 := by
    have := List.ne_nil_of_mem he
    simpa [List.length_eq_zero] using this
  have hpos : 0 < specTotalCredits classes := by
    have hmem2 : creditsOrZero e.credits ∈
        (classes.filter includeB).map fun cls => creditsOrZero cls.credits :=
      List.mem_map_of_mem _ (List.mem_filter.mpr ⟨he, hinc⟩)
    have hle : creditsOrZero e.credits ≤ specTotalCredits classes := by
      apply List.single_le_sum ?_ _ hmem2
      intro x hx
      obtain ⟨cls, hcls, hxe⟩ := List.mem_map.mp hx
      rw [← hxe]
      exact hnn cls (List.mem_of_mem_filter hcls)
    have hpos0 : 0 < creditsOrZero e.credits := by
      rcases lt_or_eq_of_le (hnn e he) with h | h
      · exact h
      · exfalso
        cases hcred : e.credits with
        | none => rw [hcred] at hc; simp [truthyCredits] at hc
        | some c =>
          rw [hcred] at hc h
          simp only [truthyCredits, bne_iff_ne] at hc
          simp only [creditsOrZero] at h
          exact hc h.symm
    exact lt_of_lt_of_le hpos0 hle
  have hsnd : (gpaTotals classes).2 = specTotalCredits classes := by
    simpa [gpaTotals] using foldl_gpaStep_snd classes (some 0, 0)
  have hfst : (gpaTotals classes).1 = none :=
    foldl_gpaStep_fst_none_of_mem classes e hinc hgp (some 0, 0) he
  unfold calculateGPA
  rw [if_neg hlen, if_neg (by rw [hsnd]; exact ne_of_gt hpos), hfst]

/-- Witness for C10: the Mystery entry with grade "E" yields "NaN". -/
theorem C10_unknown_grade_nan_witness : calculateGPA rosterMystery = "NaN" := by
  apply C10_unknown_grade_nan rosterMystery ⟨1, "Mystery", "E", some 3, some ""⟩
  · exact List.mem_singleton.mpr rfl
  · decide
  · rfl
  · simp only [truthyCredits, bne_iff_ne, ne_eq]
    norm_num
  · intro cls hcl
    fin_cases hcl
    norm_num [creditsOrZero]

/-- The spec's algorithm on the single A- with 5 credits: the exact GPA
is 3.67, exactly representable at 2 decimals, so the shortest-exact
format is "3.67". -/
theorem aminus_spec_gpa : specGPA rosterAminus = "3.67" := by
  have hval : ∀ cls ∈ rosterAminus, includeB cls = true → (gradePoints cls.grade).isSome = true := by
    intro cls hcl
    fin_cases hcl
    intro _
    rfl
  rw [← exactGPA_refines_spec rosterAminus hval]
  have hApt : ("A-" = "") = False := by decide
  have habs : |(367 / 100 : ℚ)| = 367 / 100 := abs_of_pos (by norm_num)
  norm_num [rosterAminus, calculateGPA, gpaTotals, gpaStep, includeB, truthyCredits,
    creditsOrZero, gradePoints, formatGPA, toFixedQ, zeroPad, List.foldl, hApt, habs]
  decide

/-- The spec's algorithm on [A 1cr, A- 3cr]: the exact GPA is
(4 + 3.67*3)/4 = 3.7525, not exact at 0..2 decimals, and `toFixed(3)` of
the exact value rounds the tie up to "3.753". -/
theorem mix_spec_gpa : specGPA rosterMix = "3.753" := by
  have hval : ∀ cls ∈ rosterMix, includeB cls = true → (gradePoints cls.grade).isSome = true := by
    intro cls hcl
    fin_cases hcl <;> exact fun _ => rfl
  rw [← exactGPA_refines_spec rosterMix hval]
  have hA : ("A" = "") = False := by decide
  have hApt : ("A-" = "") = False := by decide
  have habs : |(1501 / 400 : ℚ)| = 1501 / 400 := abs_of_pos (by norm_num)
  norm_num [rosterMix, calculateGPA, gpaTotals, gpaStep, includeB, truthyCredits,
    creditsOrZero, gradePoints, formatGPA, toFixedQ, zeroPad, List.foldl, hA, hApt, habs]
  decide

/-- Claim C1 (code defect exhibited): the runtime's binary64 arithmetic
makes `computeGPA()` deviate from the specified algorithm on in-range
rosters.  A single A- with 5 credits gives the double
3.6700000000000004 (3.67*5 = 18.350000000000001…, divided by 5 lands one
ulp above 3.67), every exactness test fails and the program prints
"3.670" where the algorithm — and the code's own comment "show 3 decimal
places only when needed" — require "3.67"; on [A 1cr, A- 3cr] the double
quotient is 3.75249999999999995…, printed "3.752", while the exact value
3.7525 formats to "3.753". -/
theorem C1_float_output_vs_spec :
    floatCalculateGPA rosterAminusD = "3.670" ∧ specGPA rosterAminus = "3.67" ∧
      floatCalculateGPA rosterMixD = "3.752" ∧ specGPA rosterMix = "3.753" :=
  ⟨by decide, aminus_spec_gpa, by decide, mix_spec_gpa⟩
